import Mathlib

/-!
Verification of the audio trigger pipeline of the replay-swing application
(src/audio_engine.py and src/recording.py): feature extraction, heuristic
shot classification, trigger detection with a loudness gate and a cooldown,
and the labeled training-sample store with relabeling.

Python float arithmetic is modelled by exact arithmetic: rationals for the
classifier and detector, reals for the feature extractor (which uses square
roots and an FFT).
-/

namespace ReplaySwing

/-! ## Feature vectors on the classifier side

`AudioClassifier` consumes a dictionary with the 12 keys of `FEATURE_KEYS`
(audio_engine.py lines 149-154); a complete vector is a record with one
numeric field per key, in the extractor's output order. -/

structure FeatureVector where
  rms : ℚ
  peak : ℚ
  crest_factor : ℚ
  zcr : ℚ
  spectral_centroid : ℚ
  spectral_rolloff : ℚ
  energy_0_500 : ℚ
  energy_500_2k : ℚ
  energy_2k_6k : ℚ
  energy_6k_plus : ℚ
  impact_ratio : ℚ
  rise_time : ℚ
deriving DecidableEq

/-- `AudioClassifier._classify_heuristic` (audio_engine.py lines 180-227):
sequential hand-tuned additive scoring over feature thresholds, with the
final score clamped to [0, 1]. Each `let score := ...` mirrors one
`score += ...` block of the Python source. -/
def classify_heuristic (f : FeatureVector) : ℚ :=
  let score : ℚ := 0
  let score := if 6 < f.crest_factor then score + 0.25
    else if 4 < f.crest_factor then score + 0.15
    else if 3 < f.crest_factor then score + 0.05
    else score
  let score := if 0.3 < f.impact_ratio then score + 0.25
    else if 0.15 < f.impact_ratio then score + 0.15
    else if 0.08 < f.impact_ratio then score + 0.05
    else score
  let score := if f.rise_time < 30 then score + 0.20
    else if f.rise_time < 80 then score + 0.10
    else if f.rise_time < 150 then score + 0.05
    else score
  let score := if 0.05 < f.zcr ∧ f.zcr < 0.35 then score + 0.10 else score
  let score := if 1500 < f.spectral_centroid ∧ f.spectral_centroid < 5000 then score + 0.15
    else if 800 < f.spectral_centroid ∧ f.spectral_centroid < 7000 then score + 0.05
    else score
  let score := if 0.7 < f.energy_0_500 then score - 0.15 else score
  max 0 (min 1 score)

/-- The classifier's two modes (audio_engine.py lines 144-147). -/
inductive ClassifierMode
  | heuristic
  | learned
deriving DecidableEq

/-- `AudioClassifier` state: current mode and the optional fitted model
(the scaler is folded into the abstract model value). -/
structure Classifier (Model : Type) where
  mode : ClassifierMode
  model : Option Model
deriving DecidableEq

/-- `AudioClassifier.classify` (audio_engine.py lines 174-178): dispatch to
the learned model when `mode == "learned"` and a model is present, otherwise
to the heuristic. `predict` stands for `_classify_learned`. -/
def classify (Model : Type) (predict : Model → FeatureVector → ℚ)
    (c : Classifier Model) (f : FeatureVector) : ℚ :=
  match c.mode, c.model with
  | ClassifierMode.learned, some m => predict m f
  | _, _ => classify_heuristic f

/-! ### The spec's rule table, stated as independent additive contributions.

These definitions follow the words of the specification ("additive
point-scoring over several feature thresholds, clamped to [0,1]") and are
compared against `classify_heuristic`, which is translated from the code. -/

/-- Spec rule: crest_factor tiers +0.25 / +0.15 / +0.05 at >6 / >4 / >3. -/
def spec_crest_points (cf : ℚ) : ℚ :=
  if 6 < cf then 0.25 else if 4 < cf then 0.15 else if 3 < cf then 0.05 else 0

/-- Spec rule: impact_ratio tiers +0.25 / +0.15 / +0.05 at >0.3 / >0.15 / >0.08. -/
def spec_impact_points (ir : ℚ) : ℚ :=
  if 0.3 < ir then 0.25 else if 0.15 < ir then 0.15 else if 0.08 < ir then 0.05 else 0

/-- Spec rule: rise_time tiers +0.20 / +0.10 / +0.05 at <30 / <80 / <150. -/
def spec_rise_points (rt : ℚ) : ℚ :=
  if rt < 30 then 0.20 else if rt < 80 then 0.10 else if rt < 150 then 0.05 else 0

/-- Spec rule: +0.10 when 0.05 < zcr < 0.35. -/
def spec_zcr_points (z : ℚ) : ℚ := if 0.05 < z ∧ z < 0.35 then 0.10 else 0

/-- Spec rule: +0.15 when 1500 < spectral_centroid < 5000, else +0.05 when
800 < spectral_centroid < 7000. -/
def spec_centroid_points (sc : ℚ) : ℚ :=
  if 1500 < sc ∧ sc < 5000 then 0.15 else if 800 < sc ∧ sc < 7000 then 0.05 else 0

/-- Spec rule: -0.15 when energy_0_500 > 0.7. -/
def spec_lowfreq_points (e : ℚ) : ℚ := if 0.7 < e then -0.15 else 0

/-- The spec's additive rule-table score (before clamping). -/
def spec_rule_table_score (f : FeatureVector) : ℚ :=
  spec_crest_points f.crest_factor + spec_impact_points f.impact_ratio +
    spec_rise_points f.rise_time + spec_zcr_points f.zcr +
    spec_centroid_points f.spectral_centroid + spec_lowfreq_points f.energy_0_500

lemma step_crest (s cf : ℚ) :
    (if 6 < cf then s + 0.25 else if 4 < cf then s + 0.15
      else if 3 < cf then s + 0.05 else s) = s + spec_crest_points cf := by
  unfold spec_crest_points; split_ifs <;> ring

lemma step_impact (s ir : ℚ) :
    (if 0.3 < ir then s + 0.25 else if 0.15 < ir then s + 0.15
      else if 0.08 < ir then s + 0.05 else s) = s + spec_impact_points ir := by
  unfold spec_impact_points; split_ifs <;> ring

lemma step_rise (s rt : ℚ) :
    (if rt < 30 then s + 0.20 else if rt < 80 then s + 0.10
      else if rt < 150 then s + 0.05 else s) = s + spec_rise_points rt := by
  unfold spec_rise_points; split_ifs <;> ring

lemma step_zcr (s z : ℚ) :
    (if 0.05 < z ∧ z < 0.35 then s + 0.10 else s) = s + spec_zcr_points z := by
  unfold spec_zcr_points; split_ifs <;> ring

lemma step_centroid (s sc : ℚ) :
    (if 1500 < sc ∧ sc < 5000 then s + 0.15
      else if 800 < sc ∧ sc < 7000 then s + 0.05 else s) = s + spec_centroid_points sc := by
  unfold spec_centroid_points; split_ifs <;> ring

lemma step_lowfreq (s e : ℚ) :
    (if 0.7 < e then s - 0.15 else s) = s + spec_lowfreq_points e := by
  unfold spec_lowfreq_points; split_ifs <;> ring

lemma classify_heuristic_eq_spec (f : FeatureVector) :
    classify_heuristic f = max 0 (min 1 (spec_rule_table_score f)) := by
  simp only [classify_heuristic, step_crest, step_impact, step_rise, step_zcr,
    step_centroid, step_lowfreq]
  simp only [zero_add, spec_rule_table_score]

lemma classify_heuristic_of_mode (Model : Type) (predict : Model → FeatureVector → ℚ)
    (c : Classifier Model) (f : FeatureVector)
    (hmode : c.mode = ClassifierMode.heuristic) :
    classify Model predict c f = classify_heuristic f := by
  obtain ⟨mode, model⟩ := c
  simp only at hmode
  subst hmode
  cases model <;> rfl

/-- C1: for every feature vector, the Classifier in heuristic mode returns the
additive score of the spec's exact rule table, clamped to [0, 1]. -/
theorem C1_heuristic_matches_spec_rule_table (Model : Type)
    (predict : Model → FeatureVector → ℚ) (c : Classifier Model)
    (f : FeatureVector) (hmode : c.mode = ClassifierMode.heuristic) :
    classify Model predict c f = max 0 (min 1 (spec_rule_table_score f)) := by
  rw [classify_heuristic_of_mode Model predict c f hmode, classify_heuristic_eq_spec]

/-- The spec's hand-crafted impact profile (crest_factor 8, impact_ratio 0.35,
rise_time 10, zcr 0.15, spectral_centroid 3000), used as a concrete input. -/
def impact_profile : FeatureVector :=
  ⟨0.1, 0.8, 8, 0.15, 3000, 4000, 0.05, 0.2, 0.35, 0.1, 0.35, 10⟩

theorem C1_witness :
    (⟨ClassifierMode.heuristic, none⟩ : Classifier Unit).mode = ClassifierMode.heuristic ∧
      classify Unit (fun _ _ => 0) ⟨ClassifierMode.heuristic, none⟩ impact_profile =
        max 0 (min 1 (spec_rule_table_score impact_profile)) :=
  ⟨rfl, C1_heuristic_matches_spec_rule_table Unit (fun _ _ => 0)
    ⟨ClassifierMode.heuristic, none⟩ impact_profile rfl⟩

lemma spec_crest_points_le (cf : ℚ) : spec_crest_points cf ≤ 0.25 := by
  unfold spec_crest_points; split_ifs <;> norm_num

lemma spec_impact_points_le (ir : ℚ) : spec_impact_points ir ≤ 0.25 := by
  unfold spec_impact_points; split_ifs <;> norm_num

lemma spec_rise_points_le (rt : ℚ) : spec_rise_points rt ≤ 0.20 := by
  unfold spec_rise_points; split_ifs <;> norm_num

lemma spec_zcr_points_le (z : ℚ) : spec_zcr_points z ≤ 0.10 := by
  unfold spec_zcr_points; split_ifs <;> norm_num

lemma spec_centroid_points_le (sc : ℚ) : spec_centroid_points sc ≤ 0.15 := by
  unfold spec_centroid_points; split_ifs <;> norm_num

lemma spec_lowfreq_points_le (e : ℚ) : spec_lowfreq_points e ≤ 0 := by
  unfold spec_lowfreq_points; split_ifs <;> norm_num

lemma spec_rule_table_score_le (f : FeatureVector) : spec_rule_table_score f ≤ 0.95 := by
  have h1 := spec_crest_points_le f.crest_factor
  have h2 := spec_impact_points_le f.impact_ratio
  have h3 := spec_rise_points_le f.rise_time
  have h4 := spec_zcr_points_le f.zcr
  have h5 := spec_centroid_points_le f.spectral_centroid
  have h6 := spec_lowfreq_points_le f.energy_0_500
  unfold spec_rule_table_score
  linarith

/-- C9: the heuristic-mode classify score is at most 0.95, the sum of the
maximal tier of every positive rule; in particular it never returns 1.0. -/
theorem C9_heuristic_score_at_most_095 (Model : Type)
    (predict : Model → FeatureVector → ℚ) (c : Classifier Model)
    (f : FeatureVector) (hmode : c.mode = ClassifierMode.heuristic) :
    classify Model predict c f ≤ 0.95 ∧ classify Model predict c f ≠ 1 := by
  rw [classify_heuristic_of_mode Model predict c f hmode, classify_heuristic_eq_spec]
  have hs := spec_rule_table_score_le f
  have hle : max 0 (min 1 (spec_rule_table_score f)) ≤ 0.95 := by
    apply max_le (by norm_num)
    exact le_trans (min_le_right 1 _) hs
  exact ⟨hle, by intro h; rw [h] at hle; norm_num at hle⟩

/-- All-zero feature vector, the degenerate (silent) input. -/
def zero_features : FeatureVector := ⟨0, 0, 0, 0, 0, 0, 0, 0, 0, 0, 0, 0⟩

theorem C9_witness :
    (⟨ClassifierMode.heuristic, none⟩ : Classifier Unit).mode = ClassifierMode.heuristic ∧
      classify Unit (fun _ _ => 0) ⟨ClassifierMode.heuristic, none⟩ zero_features ≤ 0.95 ∧
      classify Unit (fun _ _ => 0) ⟨ClassifierMode.heuristic, none⟩ zero_features ≠ 1 :=
  ⟨rfl, C9_heuristic_score_at_most_095 Unit (fun _ _ => 0)
    ⟨ClassifierMode.heuristic, none⟩ zero_features rfl⟩

/-! ## The trigger detector loop

`AudioDetector.run` (audio_engine.py lines 374-413). Per chunk the loop
computes `level = min(1, rms * 10)`, gates on `level < threshold * 0.5`,
accumulates chunks, and when four are accumulated classifies the combined
window and decides whether to fire. A chunk is modelled by its level and the
`time.time()` value the iteration would read; the composition
`classifier.classify(extractor.extract(combined))` is an arbitrary function
`classifyFn` of the accumulated chunks, since the loop's control flow does
not depend on how the confidence is computed. -/

structure AudioChunk where
  level : ℚ
  time : ℚ
deriving DecidableEq

/-- Mutable loop state: `_chunk_accumulator`, `cooldown_time` and the
threshold snapshot read under the lock. -/
structure DetectorState where
  accumulator : List AudioChunk
  cooldown_time : ℚ
  threshold : ℚ
deriving DecidableEq

/-- `self._chunks_needed = 4` (audio_engine.py line 334). -/
def chunks_needed : ℕ := 4

/-- One iteration of the `while self.running` body, from the loudness gate on
(audio_engine.py lines 391-413). Returns the new state and the emitted
trigger's confidence, if one fired. -/
def detectorStep (classifyFn : List AudioChunk → ℚ) (st : DetectorState)
    (c : AudioChunk) : DetectorState × Option ℚ :=
  if c.level < st.threshold * 0.5 then
    ({ st with accumulator := [] }, none)
  else
    let acc := st.accumulator ++ [c]
    if chunks_needed ≤ acc.length then
      let confidence := classifyFn acc
      if 0.45 ≤ confidence ∧ st.threshold ≤ c.level ∧ st.cooldown_time < c.time then
        ({ st with accumulator := [], cooldown_time := c.time + 3 }, some confidence)
      else
        ({ st with accumulator := [] }, none)
    else
      ({ st with accumulator := acc }, none)

/-- Iterating `detectorStep` over a stream of chunks, collecting the emitted
trigger confidences. -/
def detectorRun (classifyFn : List AudioChunk → ℚ) :
    DetectorState → List AudioChunk → DetectorState × List ℚ
  | st, [] => (st, [])
  | st, c :: cs =>
    let step := detectorStep classifyFn st c
    let rest := detectorRun classifyFn step.1 cs
    (rest.1, step.2.toList ++ rest.2)

lemma detectorStep_no_fire_of_cooldown (classifyFn : List AudioChunk → ℚ)
    (st : DetectorState) (c : AudioChunk) (hcd : ¬ st.cooldown_time < c.time) :
    (detectorStep classifyFn st c).2 = none ∧
      (detectorStep classifyFn st c).1.cooldown_time = st.cooldown_time := by
  unfold detectorStep
  dsimp only
  split_ifs with h1 h2 h3
  · exact ⟨rfl, rfl⟩
  · exact absurd h3.2.2 hcd
  · exact ⟨rfl, rfl⟩
  · exact ⟨rfl, rfl⟩

lemma detectorRun_quiet (classifyFn : List AudioChunk → ℚ) (T : ℚ) :
    ∀ (cs : List AudioChunk) (st : DetectorState), T ≤ st.cooldown_time →
      (∀ k ∈ cs, k.time ≤ T) → (detectorRun classifyFn st cs).2 = [] := by
  intro cs
  induction cs with
  | nil => intro st _ _; rfl
  | cons c cs ih =>
    intro st hT htimes
    have hcd : ¬ st.cooldown_time < c.time := by
      have := htimes c (List.mem_cons_self c cs)
      intro hlt; linarith
    obtain ⟨hnone, hkeep⟩ := detectorStep_no_fire_of_cooldown classifyFn st c hcd
    have hrest := ih (detectorStep classifyFn st c).1 (by rw [hkeep]; exact hT)
      (fun k hk => htimes k (List.mem_cons_of_mem c hk))
    simp [detectorRun, hnone, hrest]

/-- C2: in the per-chunk loop, when the loudness gate passes and the window
fills (so a confidence is computed), a trigger is emitted iff confidence ≥
0.45 and level ≥ threshold and the time is past the cooldown expiry; firing
sets the cooldown expiry to now + 3, and from a state whose cooldown expiry
is t + 3 no trigger fires on any chunk whose time is within t + 3. -/
theorem C2_trigger_decision_and_cooldown (classifyFn : List AudioChunk → ℚ)
    (st : DetectorState) (c : AudioChunk)
    (hgate : ¬ c.level < st.threshold * 0.5)
    (hwin : chunks_needed ≤ (st.accumulator ++ [c]).length) :
    ((detectorStep classifyFn st c).2.isSome = true ↔
      (0.45 ≤ classifyFn (st.accumulator ++ [c]) ∧ st.threshold ≤ c.level ∧
        st.cooldown_time < c.time)) ∧
    ((detectorStep classifyFn st c).2.isSome = true →
      (detectorStep classifyFn st c).1.cooldown_time = c.time + 3) ∧
    (∀ (t : ℚ) (st2 : DetectorState), st2.cooldown_time = t + 3 →
      ∀ cs : List AudioChunk, (∀ k ∈ cs, k.time ≤ t + 3) →
        (detectorRun classifyFn st2 cs).2 = []) := by
  refine ⟨?_, ?_, ?_⟩
  · unfold detectorStep
    rw [if_neg hgate]
    simp only [hwin, if_true, if_pos hwin]
    by_cases hfire : 0.45 ≤ classifyFn (st.accumulator ++ [c]) ∧
        st.threshold ≤ c.level ∧ st.cooldown_time < c.time
    · rw [if_pos hfire]; simpa using hfire
    · rw [if_neg hfire]; simpa using hfire
  · intro hsome
    unfold detectorStep at hsome ⊢
    rw [if_neg hgate] at hsome ⊢
    simp only [if_pos hwin] at hsome ⊢
    split_ifs at hsome ⊢ with hfire
    · rfl
    · simp at hsome
  · intro t st2 hcd cs htimes
    exact detectorRun_quiet classifyFn (t + 3) cs st2 (le_of_eq hcd.symm) htimes

theorem C2_witness :
    (detectorStep (fun _ => 1) ⟨[⟨1, 0⟩, ⟨1, 0⟩, ⟨1, 0⟩], 0, 0.2⟩ ⟨0.5, 10⟩).2.isSome = true :=
  ((C2_trigger_decision_and_cooldown (fun _ => 1) ⟨[⟨1, 0⟩, ⟨1, 0⟩, ⟨1, 0⟩], 0, 0.2⟩ ⟨0.5, 10⟩
    (by norm_num) (by norm_num [chunks_needed])).1).mpr ⟨by norm_num, by norm_num, by norm_num⟩

/-- C6: a chunk whose level is below threshold × 0.5 resets the accumulator,
changes no other detector state, emits nothing, and the outcome does not
depend on the classifier (or the feature extractor feeding it) at all. -/
theorem C6_loudness_gate_discards (classifyFn otherFn : List AudioChunk → ℚ)
    (st : DetectorState) (c : AudioChunk)
    (hquiet : c.level < st.threshold * 0.5) :
    detectorStep classifyFn st c =
      ({ accumulator := [], cooldown_time := st.cooldown_time,
         threshold := st.threshold }, none) ∧
    detectorStep classifyFn st c = detectorStep otherFn st c := by
  constructor
  · unfold detectorStep; rw [if_pos hquiet]
  · unfold detectorStep; rw [if_pos hquiet, if_pos hquiet]

theorem C6_witness :
    detectorStep (fun _ => 0) ⟨[⟨1, 0⟩], 7, 1⟩ ⟨0.1, 0⟩ =
      ({ accumulator := [], cooldown_time := 7, threshold := 1 }, none) :=
  (C6_loudness_gate_discards (fun _ => 0) (fun _ => 1) ⟨[⟨1, 0⟩], 7, 1⟩ ⟨0.1, 0⟩
    (by norm_num)).1

/-! ## The training-data store

Training samples live in `TRAINING_DATA_DIR` as files `trigger_<ts>_shot.wav`
or `trigger_<ts>_not_shot.wav` plus `trigger_<ts>_meta.json`. A directory is
`none` when it does not exist, otherwise the list of its files; a file's
`content` is its parsed JSON metadata when the file parses as a metadata
record (`none` models an unreadable or non-JSON file, which retrain skips). -/

/-- The fields of a `trigger_*_meta.json` record that the scanning and
relabeling code reads: the `label` key (absent when `none`) and the
`features` object. -/
structure MetaRecord where
  label : Option ℤ
  features : Option FeatureVector
deriving DecidableEq

structure FileEntry where
  name : String
  content : Option MetaRecord
deriving DecidableEq

/-- Whether a file name matches the glob pattern `trigger_*_meta.json`
(`*` matches any, possibly empty, run of characters). -/
def isTriggerMetaName (s : String) : Bool :=
  "trigger_".data.isPrefixOf s.data && "_meta.json".data.isSuffixOf s.data &&
    decide (18 ≤ s.data.length)

/-- `AudioClassifier.training_sample_count` (audio_engine.py lines 304-309):
0 when the directory does not exist, else the number of files matching
`trigger_*_meta.json`. -/
def training_sample_count : Option (List FileEntry) → ℕ
  | none => 0
  | some files => (files.filter fun e => isTriggerMetaName e.name).length

def hasFile (files : List FileEntry) (name : String) : Bool :=
  files.any fun e => e.name == name

/-- `meta_file.name.replace("_meta.json", "_shot.wav")`. -/
def shotWavName (metaName : String) : String :=
  metaName.replace "_meta.json" "_shot.wav"

/-- `meta_file.name.replace("_meta.json", "_not_shot.wav")`. -/
def notShotWavName (metaName : String) : String :=
  metaName.replace "_meta.json" "_not_shot.wav"

/-- Label resolution in `AudioClassifier.retrain` (audio_engine.py lines
256-266): the record's explicit label, else 1/0 from which paired wav file
exists, else no label (the sample is skipped). -/
def sampleLabel (files : List FileEntry) (metaName : String) (m : MetaRecord) :
    Option ℤ :=
  match m.label with
  | some l => some l
  | none =>
    if hasFile files (shotWavName metaName) then some 1
    else if hasFile files (notShotWavName metaName) then some 0
    else none

/-- The scan loop of `AudioClassifier.retrain` (audio_engine.py lines
251-273): one (features, label) pair per readable `trigger_*_meta.json` file
that has a resolvable label and a features object. -/
def scanSamples (files : List FileEntry) : List (FeatureVector × ℤ) :=
  (files.filter fun e => isTriggerMetaName e.name).filterMap fun e =>
    match e.content with
    | none => none
    | some m =>
      match sampleLabel files e.name m, m.features with
      | some l, some fv => some (fv, l)
      | _, _ => none

/-- `AudioClassifier.retrain` (audio_engine.py lines 236-302). `fit` stands
for scaler fitting plus `RandomForestClassifier(...).fit`; the persisted
bundle is the classifier's new model. `sklearn_available` mirrors the
`SKLEARN_AVAILABLE` import guard. The directory is created with
`mkdir(exist_ok=True)` first, so a missing directory scans as empty. -/
def retrain (Model : Type) (fit : List (FeatureVector × ℤ) → Model)
    (sklearn_available : Bool) (c : Classifier Model)
    (dir : Option (List FileEntry)) : Bool × Classifier Model :=
  if sklearn_available then
    let samples := scanSamples (dir.getD [])
    if samples.length < 10 then (false, c)
    else if ((samples.map Prod.snd).dedup).length < 2 then (false, c)
    else (true, { mode := ClassifierMode.learned, model := some (fit samples) })
  else (false, c)

/-- `shot_wav.rename(not_shot_wav)` applied to one directory entry. -/
def renameEntry (shot_wav not_shot_wav : String) (e : FileEntry) : FileEntry :=
  if e.name == shot_wav then { e with name := not_shot_wav } else e

/-- Rewriting one directory entry's metadata with `meta["label"] = 0` when it
is the (parsable) metadata file. -/
def relabelEntry (meta_name : String) (e : FileEntry) : FileEntry :=
  if e.name == meta_name then
    match e.content with
    | some m => { e with content := some { m with label := some 0 } }
    | none => e
  else e

/-- `RecordingManager._relabel_audio_sample` (recording.py lines 217-236):
rename `trigger_<ts>_shot.wav` to `trigger_<ts>_not_shot.wav` when it exists,
and rewrite the metadata's label to 0 when the metadata file exists and
parses (an unreadable record is logged and left alone). -/
def relabel_audio_sample (files : List FileEntry) (trigger_timestamp : ℤ) :
    List FileEntry :=
  let base := "trigger_" ++ toString trigger_timestamp
  let shot_wav := base ++ "_shot.wav"
  let not_shot_wav := base ++ "_not_shot.wav"
  let meta_name := base ++ "_meta.json"
  let files1 :=
    if hasFile files shot_wav then files.map (renameEntry shot_wav not_shot_wav)
    else files
  if hasFile files1 meta_name then files1.map (relabelEntry meta_name)
  else files1

lemma retrain_true_eq (Model : Type) (fit : List (FeatureVector × ℤ) → Model)
    (c : Classifier Model) (dir : Option (List FileEntry)) :
    retrain Model fit true c dir =
      (if (scanSamples (dir.getD [])).length < 10 then (false, c)
       else if (((scanSamples (dir.getD [])).map Prod.snd).dedup).length < 2 then (false, c)
       else (true, { mode := ClassifierMode.learned,
                     model := some (fit (scanSamples (dir.getD []))) })) := rfl

lemma dedup_length_le_one {α : Type} [DecidableEq α] (l : List α)
    (h : ∀ a ∈ l, ∀ b ∈ l, a = b) : l.dedup.length ≤ 1 := by
  rcases hd : l.dedup with _ | ⟨a, _ | ⟨b, t⟩⟩
  · simp
  · simp
  · exfalso
    have hnd : (a :: b :: t).Nodup := by rw [← hd]; exact l.nodup_dedup
    have hab : a ≠ b := by
      intro he
      exact (List.nodup_cons.mp hnd).1 (he ▸ List.mem_cons_self b t)
    have ha : a ∈ l := by
      rw [← List.mem_dedup, hd]; exact List.mem_cons_self a (b :: t)
    have hb : b ∈ l := by
      rw [← List.mem_dedup, hd]
      exact List.mem_cons_of_mem a (List.mem_cons_self b t)
    exact hab (h a ha b hb)

lemma exists_pair_ne_of_dedup {α : Type} [DecidableEq α] (l : List α)
    (h : 2 ≤ l.dedup.length) : ∃ a ∈ l, ∃ b ∈ l, a ≠ b := by
  rcases hd : l.dedup with _ | ⟨a, _ | ⟨b, t⟩⟩
  · rw [hd] at h; simp at h
  · rw [hd] at h; simp at h
  · have hnd : (a :: b :: t).Nodup := by rw [← hd]; exact l.nodup_dedup
    have hab : a ≠ b := by
      intro he
      exact (List.nodup_cons.mp hnd).1 (he ▸ List.mem_cons_self b t)
    have ha : a ∈ l := by
      rw [← List.mem_dedup, hd]; exact List.mem_cons_self a (b :: t)
    have hb : b ∈ l := by
      rw [← List.mem_dedup, hd]
      exact List.mem_cons_of_mem a (List.mem_cons_self b t)
    exact ⟨a, ha, b, hb, hab⟩

/-- C3: `retrain` returns false and leaves the classifier unchanged when
fewer than 10 usable labeled samples exist or when every scanned sample
carries the same label; it reaches learned mode only by returning true on a
scan with at least 10 samples containing both classes. -/
theorem C3_retrain_guards (Model : Type) (fit : List (FeatureVector × ℤ) → Model)
    (sk : Bool) (c : Classifier Model) (dir : Option (List FileEntry)) :
    ((scanSamples (dir.getD [])).length < 10 →
      retrain Model fit sk c dir = (false, c)) ∧
    ((∀ p ∈ scanSamples (dir.getD []), ∀ q ∈ scanSamples (dir.getD []), p.2 = q.2) →
      retrain Model fit sk c dir = (false, c)) ∧
    ((retrain Model fit sk c dir).1 = false → (retrain Model fit sk c dir).2 = c) ∧
    ((retrain Model fit sk c dir).2.mode = ClassifierMode.learned ∧
        c.mode ≠ ClassifierMode.learned →
      (retrain Model fit sk c dir).1 = true ∧
        10 ≤ (scanSamples (dir.getD [])).length ∧
        ∃ p ∈ scanSamples (dir.getD []), ∃ q ∈ scanSamples (dir.getD []), p.2 ≠ q.2) := by
  cases sk with
  | false =>
    refine ⟨fun _ => rfl, fun _ => rfl, fun _ => rfl, fun h => absurd h.1 h.2⟩
  | true =>
    have hsingle : (∀ p ∈ scanSamples (dir.getD []), ∀ q ∈ scanSamples (dir.getD []),
        p.2 = q.2) →
        (((scanSamples (dir.getD [])).map Prod.snd).dedup).length < 2 := by
      intro hall
      have hmap : ∀ a ∈ (scanSamples (dir.getD [])).map Prod.snd,
          ∀ b ∈ (scanSamples (dir.getD [])).map Prod.snd, a = b := by
        intro a ha b hb
        obtain ⟨p, hp, rfl⟩ := List.mem_map.mp ha
        obtain ⟨q, hq, rfl⟩ := List.mem_map.mp hb
        exact hall p hp q hq
      have := dedup_length_le_one _ hmap
      omega
    refine ⟨?_, ?_, ?_, ?_⟩
    · intro h10
      rw [retrain_true_eq, if_pos h10]
    · intro hall
      rw [retrain_true_eq]
      by_cases h10 : (scanSamples (dir.getD [])).length < 10
      · rw [if_pos h10]
      · rw [if_neg h10, if_pos (hsingle hall)]
    · intro hfalse
      rw [retrain_true_eq] at hfalse ⊢
      split_ifs at hfalse ⊢ <;> rfl
    · intro hlearned
      obtain ⟨hm, hne⟩ := hlearned
      rw [retrain_true_eq] at hm ⊢
      split_ifs at hm ⊢ with h10 hd2
      · exact absurd hm hne
      · exact absurd hm hne
      · refine ⟨rfl, by omega, ?_⟩
        have h2le : 2 ≤ (((scanSamples (dir.getD [])).map Prod.snd).dedup).length := by
          omega
        obtain ⟨a, ha, b, hb, hab⟩ := exists_pair_ne_of_dedup _ h2le
        obtain ⟨p, hp, rfl⟩ := List.mem_map.mp ha
        obtain ⟨q, hq, rfl⟩ := List.mem_map.mp hb
        exact ⟨p, hp, q, hq, hab⟩

theorem C3_witness :
    (scanSamples ((some ([] : List FileEntry)).getD [])).length < 10 ∧
      retrain Unit (fun _ => ()) true (⟨ClassifierMode.heuristic, none⟩ : Classifier Unit)
        (some []) = (false, ⟨ClassifierMode.heuristic, none⟩) :=
  ⟨by decide, (C3_retrain_guards Unit (fun _ => ()) true ⟨ClassifierMode.heuristic, none⟩
    (some [])).1 (by decide)⟩

lemma isTriggerMetaName_iff (s : String) :
    isTriggerMetaName s = true ↔
      ∃ mid : List Char, s.data = "trigger_".data ++ mid ++ "_meta.json".data := by
  have h8 : ("trigger_".data).length = 8 := by decide
  have h10 : ("_meta.json".data).length = 10 := by decide
  unfold isTriggerMetaName
  rw [Bool.and_eq_true, Bool.and_eq_true]
  constructor
  · rintro ⟨⟨hpre, hsuf⟩, hlen⟩
    rw [ List.isPrefixOf_iff_prefix] at hpre
    rw [List.isSuffixOf_iff_suffix] at hsuf
    rw [decide_eq_true_eq] at hlen
    obtain ⟨t, ht⟩ := hpre
    have hlen_eq : ("trigger_".data).length + t.length = (s.data).length := by
      rw [← ht, List.length_append]
    have htsuf : t <:+ s.data := ⟨"trigger_".data, ht⟩
    have hsuf_t : "_meta.json".data <:+ t :=
      List.suffix_of_suffix_length_le hsuf htsuf (by omega)
    obtain ⟨mid, hmid⟩ := hsuf_t
    exact ⟨mid, by rw [← ht, ← hmid, List.append_assoc]⟩
  · rintro ⟨mid, hmid⟩
    refine ⟨⟨?_, ?_⟩, ?_⟩
    · rw [ List.isPrefixOf_iff_prefix]
      exact ⟨mid ++ "_meta.json".data, by rw [hmid, List.append_assoc]⟩
    · rw [List.isSuffixOf_iff_suffix]
      exact ⟨"trigger_".data ++ mid, by rw [hmid, List.append_assoc]⟩
    · rw [decide_eq_true_eq, hmid]
      simp only [List.length_append, h8, h10]
      omega

/-- C10: `training_sample_count` is 0 for a missing directory and otherwise
counts exactly the files whose name matches `trigger_*_meta.json` (a name
decomposes as `trigger_` ++ anything ++ `_meta.json`), independently of the
files' contents. -/
theorem C10_training_sample_count_paths :
    training_sample_count none = 0 ∧
    (∀ files : List FileEntry,
      training_sample_count (some files) =
        (files.filter fun e => isTriggerMetaName e.name).length) ∧
    (∀ s : String, isTriggerMetaName s = true ↔
      ∃ mid : List Char, s.data = "trigger_".data ++ mid ++ "_meta.json".data) ∧
    (∀ (files : List FileEntry) (g : FileEntry → Option MetaRecord),
      training_sample_count (some (files.map fun e => { e with content := g e })) =
        training_sample_count (some files)) := by
  refine ⟨rfl, fun _ => rfl, isTriggerMetaName_iff, ?_⟩
  intro files g
  simp only [training_sample_count]
  induction files with
  | nil => rfl
  | cons e t ih =>
    simp only [List.map_cons, List.filter_cons]
    by_cases h : isTriggerMetaName e.name
    · simp only [h, if_true, List.length_cons]
      rw [ih]
    · simp only [h, if_false, Bool.false_eq_true]
      exact ih

theorem C10_witness :
    isTriggerMetaName "trigger_123_meta.json" = true ∧
      ∃ mid : List Char,
        ("trigger_123_meta.json").data = "trigger_".data ++ mid ++ "_meta.json".data :=
  ⟨by decide, (C10_training_sample_count_paths.2.2.1 "trigger_123_meta.json").mp (by decide)⟩

lemma relabelEntry_name (mn : String) (e : FileEntry) :
    (relabelEntry mn e).name = e.name := by
  obtain ⟨nm, co⟩ := e
  unfold relabelEntry
  dsimp only
  split_ifs with h
  · cases co <;> rfl
  · rfl

lemma hasFile_iff (files : List FileEntry) (name : String) :
    hasFile files name = true ↔ ∃ e ∈ files, e.name = name := by
  unfold hasFile
  rw [List.any_eq_true]
  constructor
  · rintro ⟨e, he, hbe⟩
    exact ⟨e, he, by simpa using hbe⟩
  · rintro ⟨e, he, hn⟩
    exact ⟨e, he, by simp [hn]⟩

lemma not_shot_wav_ne_shot_wav (b : String) :
    (b ++ "_not_shot.wav") ≠ (b ++ "_shot.wav") := by
  intro h
  have hlen := congrArg String.length h
  rw [String.length_append, String.length_append] at hlen
  have h13 : ("_not_shot.wav").length = 13 := by decide
  have h9 : ("_shot.wav").length = 9 := by decide
  omega

/-- C7: relabeling by trigger timestamp renames every `_shot.wav` file of
that identity to `_not_shot.wav` and rewrites the parsable metadata's label
to 0, which a subsequent retrain scan reads back as label 0; when neither
file of that identity exists the operation changes nothing. -/
theorem C7_relabel_roundtrip_or_noop (files : List FileEntry) (ts : ℤ) :
    (∀ e ∈ relabel_audio_sample files ts,
      e.name ≠ ("trigger_" ++ toString ts) ++ "_shot.wav") ∧
    (hasFile files (("trigger_" ++ toString ts) ++ "_shot.wav") = true →
      hasFile (relabel_audio_sample files ts)
        (("trigger_" ++ toString ts) ++ "_not_shot.wav") = true) ∧
    (∀ e ∈ relabel_audio_sample files ts,
      e.name = ("trigger_" ++ toString ts) ++ "_meta.json" →
      ∀ m, e.content = some m →
        m.label = some 0 ∧
        sampleLabel (relabel_audio_sample files ts) e.name m = some 0) ∧
    (hasFile files (("trigger_" ++ toString ts) ++ "_shot.wav") = false →
      hasFile files (("trigger_" ++ toString ts) ++ "_meta.json") = false →
      relabel_audio_sample files ts = files) := by
  set base := "trigger_" ++ toString ts with hbase
  set shot := base ++ "_shot.wav" with hshot
  set notShot := base ++ "_not_shot.wav" with hnotshot
  set metaN := base ++ "_meta.json" with hmetaN
  have hrel : relabel_audio_sample files ts =
      (if hasFile (if hasFile files shot then files.map (renameEntry shot notShot)
          else files) metaN then
        (if hasFile files shot then files.map (renameEntry shot notShot)
          else files).map (relabelEntry metaN)
       else
        (if hasFile files shot then files.map (renameEntry shot notShot)
          else files)) := rfl
  have hphase1_names : ∀ e ∈ (if hasFile files shot then
      files.map (renameEntry shot notShot) else files), e.name ≠ shot := by
    split_ifs with h1
    · intro e he
      obtain ⟨x, _, rfl⟩ := List.mem_map.mp he
      unfold renameEntry
      split_ifs with hx2
      · exact not_shot_wav_ne_shot_wav base
      · simpa using hx2
    · intro e he heq
      exact h1 ((hasFile_iff files shot).mpr ⟨e, he, heq⟩)
  refine ⟨?_, ?_, ?_, ?_⟩
  · -- no file of the old shot name remains
    rw [hrel]
    generalize hF : (if hasFile files shot then files.map (renameEntry shot notShot)
      else files) = files1 at hphase1_names ⊢
    split_ifs with h2
    · intro e he
      obtain ⟨x, hx, rfl⟩ := List.mem_map.mp he
      rw [relabelEntry_name]
      exact hphase1_names x hx
    · exact hphase1_names
  · -- the renamed file exists afterwards
    intro h1
    obtain ⟨x, hx, hxname⟩ := (hasFile_iff files shot).mp h1
    have hxmem : renameEntry shot notShot x ∈
        (if hasFile files shot then files.map (renameEntry shot notShot) else files) := by
      rw [if_pos h1]
      exact List.mem_map_of_mem _ hx
    have hxren : (renameEntry shot notShot x).name = notShot := by
      unfold renameEntry
      rw [if_pos (by simp [hxname])]
    rw [hrel]
    generalize hF : (if hasFile files shot then files.map (renameEntry shot notShot)
      else files) = files1 at hxmem ⊢
    split_ifs with h2
    · exact (hasFile_iff _ _).mpr
        ⟨relabelEntry metaN (renameEntry shot notShot x),
         List.mem_map_of_mem _ hxmem, by rw [relabelEntry_name, hxren]⟩
    · exact (hasFile_iff _ _).mpr ⟨renameEntry shot notShot x, hxmem, hxren⟩
  · -- the metadata's label reads 0 afterwards
    rw [hrel]
    generalize hF : (if hasFile files shot then files.map (renameEntry shot notShot)
      else files) = files1
    split_ifs with h2
    · intro e he hname m hm
      obtain ⟨x, hx, rfl⟩ := List.mem_map.mp he
      have hxn : x.name = metaN := by rw [← relabelEntry_name metaN x]; exact hname
      have hcond : (x.name == metaN) = true := by simp [hxn]
      rcases hco : x.content with _ | m0
      · have hnone : (relabelEntry metaN x).content = none := by
          unfold relabelEntry
          rw [if_pos hcond, hco]
          exact hco
        rw [hnone] at hm
        cases hm
      · have hsome : (relabelEntry metaN x).content = some { m0 with label := some 0 } := by
          unfold relabelEntry
          rw [if_pos hcond, hco]
        rw [hsome] at hm
        have hmeq : m = { m0 with label := some 0 } := by
          injection hm.symm
        refine ⟨by rw [hmeq], ?_⟩
        unfold sampleLabel
        rw [hmeq]
    · intro e he hname m _
      exact absurd ((hasFile_iff _ _).mpr ⟨e, he, hname⟩) h2
  · -- silent no-op when no sample of that identity exists
    intro h1 h2
    have hc1 : ¬ (hasFile files shot = true) := by simp [h1]
    have hc2 : ¬ (hasFile files metaN = true) := by simp [h2]
    rw [hrel, if_neg hc1, if_neg hc2]

theorem C7_witness :
    hasFile [⟨"trigger_5_shot.wav", none⟩,
             ⟨"trigger_5_meta.json", some ⟨some 1, none⟩⟩]
        (("trigger_" ++ toString (5 : ℤ)) ++ "_shot.wav") = true ∧
      hasFile (relabel_audio_sample
          [⟨"trigger_5_shot.wav", none⟩,
           ⟨"trigger_5_meta.json", some ⟨some 1, none⟩⟩] 5)
        (("trigger_" ++ toString (5 : ℤ)) ++ "_not_shot.wav") = true :=
  ⟨by decide, (C7_relabel_roundtrip_or_noop
      [⟨"trigger_5_shot.wav", none⟩, ⟨"trigger_5_meta.json", some ⟨some 1, none⟩⟩]
      5).2.1 (by decide)⟩

/-! ## The feature extractor

`AudioFeatureExtractor.extract` (audio_engine.py lines 51-134), modelled over
the reals: numpy's float sqrt, FFT and trigonometry become their exact
real/complex counterparts. A window of samples is a `List ℝ`; the returned
dictionary is an association list in the source's key order. -/

noncomputable section

open Classical

/-- `np.sqrt(np.mean(samples ** 2))`. -/
def rmsOf (s : List ℝ) : ℝ :=
  Real.sqrt ((s.map fun x => x ^ 2).sum / s.length)

/-- `np.max(np.abs(samples))` (samples' absolute values are nonnegative, so
folding `max` from 0 agrees with numpy's maximum on a nonempty window). -/
def peakOf (s : List ℝ) : ℝ :=
  (s.map fun x => |x|).foldr max 0

/-- `crest_factor = peak / rms if rms > 1e-10 else 0.0`. -/
def crestFactorOf (s : List ℝ) : ℝ :=
  if 1e-10 < rmsOf s then peakOf s / rmsOf s else 0

/-- `np.sign`. -/
def sgn (x : ℝ) : ℝ := if 0 < x then 1 else if x < 0 then -1 else 0

/-- `np.sum(np.diff(np.sign(samples)) != 0) / n`. -/
def zcrOf (s : List ℝ) : ℝ :=
  (((Finset.range (s.length - 1)).filter
      (fun j : ℕ => sgn (s.getD (j + 1) 0) ≠ sgn (s.getD j 0))).card : ℝ) / s.length

/-- `np.abs(np.fft.rfft(samples))[k]`: the k-th magnitude of the real FFT. -/
def dftMag (s : List ℝ) (k : ℕ) : ℝ :=
  Complex.abs (∑ j in Finset.range s.length,
    (s.getD j 0 : ℂ) * Complex.exp (-(2 * Real.pi * (j : ℂ) * (k : ℂ) / (s.length : ℂ)) * Complex.I))

/-- Number of rfft bins: `n // 2 + 1`. -/
def numBins (n : ℕ) : ℕ := n / 2 + 1

/-- `np.fft.rfftfreq(n, d=1/sample_rate)[k] = k * sample_rate / n`. -/
def freqOf (sample_rate : ℝ) (n : ℕ) (k : ℕ) : ℝ := k * sample_rate / n

/-- `np.sum(magnitudes)`. -/
def magSum (s : List ℝ) : ℝ := ∑ k in Finset.range (numBins s.length), dftMag s k

/-- `np.sum(magnitudes ** 2)` before the 1e-20 floor. -/
def totalEnergyRaw (s : List ℝ) : ℝ :=
  ∑ k in Finset.range (numBins s.length), dftMag s k ^ 2

/-- `total_energy`, floored at 1e-20. -/
def totalEnergy (s : List ℝ) : ℝ :=
  if totalEnergyRaw s < 1e-20 then 1e-20 else totalEnergyRaw s

/-- `band_energy(low, high)`: summed squared magnitudes over the bins with
`low <= freq < high`. -/
def bandEnergy (sample_rate : ℝ) (s : List ℝ) (low high : ℝ) : ℝ :=
  ∑ k in (Finset.range (numBins s.length)).filter
      (fun k : ℕ => low ≤ freqOf sample_rate s.length k ∧ freqOf sample_rate s.length k < high),
    dftMag s k ^ 2

/-- `spectral_centroid`. -/
def spectralCentroid (sample_rate : ℝ) (s : List ℝ) : ℝ :=
  if 1e-10 < magSum s then
    (∑ k in Finset.range (numBins s.length), freqOf sample_rate s.length k * dftMag s k) /
      magSum s
  else 0

/-- `np.cumsum(magnitudes ** 2)[k]`. -/
def cumulativeEnergy (s : List ℝ) (k : ℕ) : ℝ :=
  ∑ j in Finset.range (k + 1), dftMag s j ^ 2

/-- `np.searchsorted(cumulative, 0.85 * cumulative[-1]) if cumulative[-1] > 0
else 0`: for a sorted array, searchsorted returns the number of entries
strictly below the probe. -/
def rolloffIdx (s : List ℝ) : ℕ :=
  if 0 < cumulativeEnergy s (numBins s.length - 1) then
    ((Finset.range (numBins s.length)).filter
      (fun k : ℕ => cumulativeEnergy s k <
        0.85 * cumulativeEnergy s (numBins s.length - 1))).card
  else 0

/-- `freqs[min(rolloff_idx, len(freqs) - 1)]`. -/
def spectralRolloff (sample_rate : ℝ) (s : List ℝ) : ℝ :=
  freqOf sample_rate s.length (min (rolloffIdx s) (numBins s.length - 1))

/-- `np.argmax(abs_samples >= threshold) if np.any(abs_samples >= threshold)
else dflt`: index of the first sample whose absolute value reaches θ. -/
def firstIdxGe (s : List ℝ) (θ : ℝ) (dflt : ℕ) : ℕ :=
  if s.any (fun x => decide (θ ≤ |x|)) then s.findIdx (fun x => decide (θ ≤ |x|)) else dflt

/-- `rise_time = max(0, idx_90 - idx_10)` (audio_engine.py lines 105-111). -/
def riseTime (s : List ℝ) : ℤ :=
  max 0 ((firstIdxGe s (peakOf s * 0.9) s.length : ℤ) -
    (firstIdxGe s (peakOf s * 0.1) 0 : ℤ))

/-- The 12 keys, in `_empty_features` / output order. -/
def feature_keys : List String :=
  ["rms", "peak", "crest_factor", "zcr",
   "spectral_centroid", "spectral_rolloff",
   "energy_0_500", "energy_500_2k", "energy_2k_6k", "energy_6k_plus",
   "impact_ratio", "rise_time"]

/-- `AudioFeatureExtractor._empty_features`: `{k: 0.0 for k in [...]}`. -/
def empty_features : List (String × ℝ) := feature_keys.map fun k => (k, 0)

/-- `AudioFeatureExtractor.extract` (audio_engine.py lines 51-126). The
`impact_ratio` entry is the same expression `e_2k_6k / total_energy` that the
`energy_2k_6k` entry normalizes to, exactly as in the source. -/
def extract (sample_rate : ℝ) (s : List ℝ) : List (String × ℝ) :=
  if s.length = 0 then empty_features
  else
    [("rms", rmsOf s),
     ("peak", peakOf s),
     ("crest_factor", crestFactorOf s),
     ("zcr", zcrOf s),
     ("spectral_centroid", spectralCentroid sample_rate s),
     ("spectral_rolloff", spectralRolloff sample_rate s),
     ("energy_0_500", bandEnergy sample_rate s 0 500 / totalEnergy s),
     ("energy_500_2k", bandEnergy sample_rate s 500 2000 / totalEnergy s),
     ("energy_2k_6k", bandEnergy sample_rate s 2000 6000 / totalEnergy s),
     ("energy_6k_plus", bandEnergy sample_rate s 6000 (sample_rate / 2) / totalEnergy s),
     ("impact_ratio", bandEnergy sample_rate s 2000 6000 / totalEnergy s),
     ("rise_time", (riseTime s : ℝ))]

end

/-- C4: on the empty window `extract` returns all 12 features as exactly 0.0
without error, and on every window it returns exactly the 12 documented keys
in order. -/
theorem C4_extract_keys_total :
    (∀ sample_rate : ℝ, extract sample_rate [] =
      [("rms", 0), ("peak", 0), ("crest_factor", 0), ("zcr", 0),
       ("spectral_centroid", 0), ("spectral_rolloff", 0),
       ("energy_0_500", 0), ("energy_500_2k", 0), ("energy_2k_6k", 0),
       ("energy_6k_plus", 0), ("impact_ratio", 0), ("rise_time", 0)]) ∧
    (∀ (sample_rate : ℝ) (s : List ℝ),
      (extract sample_rate s).map Prod.fst = feature_keys) ∧
    feature_keys.length = 12 := by
  refine ⟨fun _ => rfl, ?_, rfl⟩
  intro sample_rate s
  unfold extract
  by_cases h : s.length = 0
  · rw [if_pos h]; rfl
  · rw [if_neg h]; rfl

/-- C5: for every window and sample rate the extractor's `impact_ratio`
output equals its `energy_2k_6k` output. -/
theorem C5_impact_ratio_equals_energy_2k_6k (sample_rate : ℝ) (s : List ℝ) :
    List.lookup "impact_ratio" (extract sample_rate s) =
      List.lookup "energy_2k_6k" (extract sample_rate s) := by
  unfold extract
  by_cases h : s.length = 0
  · rw [if_pos h]; rfl
  · rw [if_neg h]; rfl

/-! ### Single-sample impulse windows (claim C8)

A window with exactly one nonzero sample `a` at position `i`, followed by
`m` zeros. -/

def impulseWindow (i : ℕ) (a : ℝ) (m : ℕ) : List ℝ :=
  List.replicate i 0 ++ a :: List.replicate m 0

lemma impulseWindow_length (i : ℕ) (a : ℝ) (m : ℕ) :
    (impulseWindow i a m).length = i + 1 + m := by
  simp [impulseWindow]
  omega

lemma impulse_sumSq (i : ℕ) (a : ℝ) (m : ℕ) :
    ((impulseWindow i a m).map fun x => x ^ 2).sum = a ^ 2 := by
  simp [impulseWindow]

lemma foldr_max_replicate_zero (i : ℕ) (b : ℝ) (hb : 0 ≤ b) :
    (List.replicate i (0:ℝ)).foldr max b = b := by
  induction i with
  | zero => rfl
  | succ n ih => simp [List.replicate_succ, ih, max_eq_right hb]

lemma impulse_peak (i : ℕ) (a : ℝ) (m : ℕ) : peakOf (impulseWindow i a m) = |a| := by
  unfold peakOf impulseWindow
  rw [List.map_append, List.foldr_append, List.map_cons, List.map_replicate,
    List.map_replicate, abs_zero, List.foldr_cons,
    foldr_max_replicate_zero m 0 le_rfl, max_eq_left (abs_nonneg a),
    foldr_max_replicate_zero i (|a|) (abs_nonneg a)]

lemma impulse_rms (i : ℕ) (a : ℝ) (m : ℕ) :
    rmsOf (impulseWindow i a m) = |a| / Real.sqrt ((i + 1 + m : ℕ) : ℝ) := by
  unfold rmsOf
  rw [impulse_sumSq, impulseWindow_length, Real.sqrt_div (sq_nonneg a),
    Real.sqrt_sq_eq_abs]

lemma impulse_crest (i : ℕ) (a : ℝ) (m : ℕ)
    (hgate : Real.sqrt ((i + 1 + m : ℕ) : ℝ) < |a| * 10 ^ 10) :
    crestFactorOf (impulseWindow i a m) = Real.sqrt ((i + 1 + m : ℕ) : ℝ) := by
  have hN : (0:ℝ) < ((i + 1 + m : ℕ) : ℝ) := by
    have : 0 < i + 1 + m := by omega
    exact_mod_cast this
  have hsN : 0 < Real.sqrt ((i + 1 + m : ℕ) : ℝ) := Real.sqrt_pos.mpr hN
  have ha : a ≠ 0 := by
    intro h0
    rw [h0, abs_zero, zero_mul] at hgate
    exact absurd hgate (not_lt.mpr (Real.sqrt_nonneg _))
  have habs : 0 < |a| := abs_pos.mpr ha
  have hconst : (1e-10 : ℝ) * 10 ^ 10 = 1 := by norm_num
  have hrms_pos : (1e-10 : ℝ) < rmsOf (impulseWindow i a m) := by
    rw [impulse_rms, lt_div_iff₀ hsN]
    calc (1e-10 : ℝ) * Real.sqrt ((i + 1 + m : ℕ) : ℝ)
        < 1e-10 * (|a| * 10 ^ 10) := by
          exact mul_lt_mul_of_pos_left hgate (by norm_num)
      _ = (1e-10 * 10 ^ 10) * |a| := by ring
      _ = |a| := by rw [hconst, one_mul]
  unfold crestFactorOf
  rw [if_pos hrms_pos, impulse_peak, impulse_rms, div_div_eq_mul_div,
    mul_comm, mul_div_assoc, div_self (ne_of_gt habs), mul_one]

lemma impulse_crest_zero (i : ℕ) (a : ℝ) (m : ℕ)
    (hquiet : rmsOf (impulseWindow i a m) ≤ 1e-10) :
    crestFactorOf (impulseWindow i a m) = 0 := by
  unfold crestFactorOf
  rw [if_neg (not_lt.mpr hquiet)]

lemma any_impulse (i : ℕ) (a : ℝ) (m : ℕ) (p : ℝ → Bool) (hpa : p a = true) :
    (impulseWindow i a m).any p = true := by
  simp [impulseWindow, hpa]

lemma findIdx_impulse (i : ℕ) (a : ℝ) (m : ℕ) (p : ℝ → Bool)
    (hp0 : p 0 = false) (hpa : p a = true) :
    (impulseWindow i a m).findIdx p = i := by
  unfold impulseWindow
  induction i with
  | zero => simp [List.findIdx_cons, hpa]
  | succ n ih => simp [List.replicate_succ, List.findIdx_cons, hp0, ih]

lemma impulse_riseTime (i : ℕ) (a : ℝ) (m : ℕ) (ha : a ≠ 0) :
    riseTime (impulseWindow i a m) = 0 := by
  have habs : 0 < |a| := abs_pos.mpr ha
  unfold riseTime firstIdxGe
  rw [impulse_peak]
  have h10a : (decide (|a| * 0.1 ≤ |(0:ℝ)|)) = false := by
    rw [decide_eq_false_iff_not, abs_zero, not_le]
    nlinarith
  have h10b : (decide (|a| * 0.1 ≤ |a|)) = true := by
    rw [decide_eq_true_eq]
    nlinarith
  have h90a : (decide (|a| * 0.9 ≤ |(0:ℝ)|)) = false := by
    rw [decide_eq_false_iff_not, abs_zero, not_le]
    nlinarith
  have h90b : (decide (|a| * 0.9 ≤ |a|)) = true := by
    rw [decide_eq_true_eq]
    nlinarith
  rw [if_pos (any_impulse i a m _ h90b), if_pos (any_impulse i a m _ h10b),
    findIdx_impulse i a m _ h90a h90b, findIdx_impulse i a m _ h10a h10b]
  simp

lemma extract_crest (sample_rate : ℝ) (s : List ℝ) (h : ¬ s.length = 0) :
    List.lookup "crest_factor" (extract sample_rate s) = some (crestFactorOf s) := by
  unfold extract
  rw [if_neg h]
  rfl

lemma extract_rise (sample_rate : ℝ) (s : List ℝ) (h : ¬ s.length = 0) :
    List.lookup "rise_time" (extract sample_rate s) = some ((riseTime s : ℝ)) := by
  unfold extract
  rw [if_neg h]
  rfl

/-- C8 counterexample: the claim fails as stated. A one-impulse window of
length 2 has crest factor √2, not > 10; and a one-impulse window of length
4096 with amplitude 1e-9 falls under the extractor's `rms > 1e-10` guard and
gets crest factor 0, not > 10. -/
theorem C8_counterexample_small_or_quiet_impulse :
    ¬ (10 < (List.lookup "crest_factor"
        (extract 44100 (impulseWindow 0 1 1))).getD 0) ∧
    ¬ (10 < (List.lookup "crest_factor"
        (extract 44100 (impulseWindow 0 1e-9 4095))).getD 0) := by
  constructor
  · have hne : ¬ (impulseWindow 0 (1:ℝ) 1).length = 0 := by
      rw [impulseWindow_length]
      omega
    have hamp : Real.sqrt ((0 + 1 + 1 : ℕ) : ℝ) < |(1:ℝ)| * 10 ^ 10 := by
      rw [abs_one, one_mul, Real.sqrt_lt' (by norm_num : (0:ℝ) < 10 ^ 10)]
      norm_num
    rw [extract_crest _ _ hne, Option.getD_some, impulse_crest 0 1 1 hamp, not_lt]
    have h2 : ((0 + 1 + 1 : ℕ) : ℝ) = 2 := by norm_num
    rw [h2]
    calc Real.sqrt 2 ≤ Real.sqrt 100 := Real.sqrt_le_sqrt (by norm_num)
      _ = 10 := by
          rw [show (100:ℝ) = 10 ^ 2 by norm_num,
            Real.sqrt_sq (by norm_num : (0:ℝ) ≤ 10)]
  · have hne : ¬ (impulseWindow 0 (1e-9:ℝ) 4095).length = 0 := by
      rw [impulseWindow_length]
      omega
    have hrms : rmsOf (impulseWindow 0 (1e-9:ℝ) 4095) ≤ 1e-10 := by
      rw [impulse_rms]
      have hc : ((0 + 1 + 4095 : ℕ) : ℝ) = 4096 := by norm_num
      rw [hc, show (4096:ℝ) = 64 ^ 2 by norm_num,
        Real.sqrt_sq (by norm_num : (0:ℝ) ≤ 64),
        abs_of_pos (by norm_num : (0:ℝ) < 1e-9)]
      norm_num
    rw [extract_crest _ _ hne, Option.getD_some, impulse_crest_zero 0 (1e-9) 4095 hrms]
    norm_num

/-- C8 (amended): for every single-sample-impulse window whose length exceeds
100 and whose amplitude clears the extractor's rms floor (|a|·10¹⁰ exceeds
the square root of the window length), extract yields crest_factor > 10 and
rise_time < 5. -/
theorem C8_impulse_crest_gt10_rise_lt5 (sample_rate : ℝ) (i m : ℕ) (a : ℝ)
    (hlen : 100 < i + 1 + m)
    (hamp : Real.sqrt ((i + 1 + m : ℕ) : ℝ) < |a| * 10 ^ 10) :
    10 < (List.lookup "crest_factor"
        (extract sample_rate (impulseWindow i a m))).getD 0 ∧
    (List.lookup "rise_time"
        (extract sample_rate (impulseWindow i a m))).getD 0 < 5 := by
  have hne : ¬ (impulseWindow i a m).length = 0 := by
    rw [impulseWindow_length]
    omega
  have ha : a ≠ 0 := by
    intro h0
    rw [h0, abs_zero, zero_mul] at hamp
    exact absurd hamp (not_lt.mpr (Real.sqrt_nonneg _))
  constructor
  · rw [extract_crest _ _ hne, Option.getD_some, impulse_crest i a m hamp,
      Real.lt_sqrt (by norm_num : (0:ℝ) ≤ 10)]
    have hcast : (100:ℝ) < ((i + 1 + m : ℕ) : ℝ) := by exact_mod_cast hlen
    nlinarith
  · rw [extract_rise _ _ hne, Option.getD_some, impulse_riseTime i a m ha]
    norm_num

theorem C8_witness :
    100 < 0 + 1 + 100 ∧
    Real.sqrt ((0 + 1 + 100 : ℕ) : ℝ) < |(1:ℝ)| * 10 ^ 10 ∧
    (10 < (List.lookup "crest_factor"
        (extract 44100 (impulseWindow 0 1 100))).getD 0 ∧
      (List.lookup "rise_time"
        (extract 44100 (impulseWindow 0 1 100))).getD 0 < 5) := by
  have hamp : Real.sqrt ((0 + 1 + 100 : ℕ) : ℝ) < |(1:ℝ)| * 10 ^ 10 := by
    rw [abs_one, one_mul, Real.sqrt_lt' (by norm_num : (0:ℝ) < 10 ^ 10)]
    norm_num
  exact ⟨by norm_num, hamp,
    C8_impulse_crest_gt10_rise_lt5 44100 0 100 1 (by norm_num) hamp⟩

end ReplaySwing
